import Mathlib

/-!
Verification of the zephyrus command-dispatch core: a shallow embedding of the
interaction router, the typed argument-parsing pipeline and the waiter registry,
translated from the Rust sources (`zephyrus/src/framework.rs`,
`src/parse_impl.rs`, `zephyrus/src/command.rs`, `zephyrus-macros/src/button.rs`).
Machine integers are modelled as `Int`/`Nat` with explicit two's-complement
wrapping where the source performs an `as` cast.
-/

set_option autoImplicit false

namespace Zephyrus

/-- The wire-level option type tag (`CommandOptionType` in twilight). -/
inductive CommandOptionType where
  | string
  | integer
  | number
  | boolean
  | user
  | channel
  | role
  | mentionable
  | subCommand
  | subCommandGroup
  deriving DecidableEq, Repr

mutual

/-- The untyped tagged-union payload of a single option
(`CommandOptionValue` in twilight).  The `number` payload carries the f64 bit
pattern as a `Nat`; no claim inspects it. -/
inductive CommandOptionValue where
  | str (s : String)
  | integer (i : Int)
  | number (bits : Nat)
  | boolean (b : Bool)
  | user (id : Nat)
  | channel (id : Nat)
  | role (id : Nat)
  | mentionable (id : Nat)
  | subCommand (options : List CommandDataOption)
  | subCommandGroup (options : List CommandDataOption)
  | focused (input : String) (kind : CommandOptionType)

/-- A named option entry (`CommandDataOption` in twilight). -/
inductive CommandDataOption where
  | mk (name : String) (value : CommandOptionValue)

end

/-- The name of an option entry. -/
def CommandDataOption.name : CommandDataOption → String
  | .mk n _ => n

/-- The value of an option entry. -/
def CommandDataOption.value : CommandDataOption → CommandOptionValue
  | .mk _ v => v

/-- `CommandOptionValue::kind()`: the type tag derived from the variant. -/
def CommandOptionValue.kind : CommandOptionValue → CommandOptionType
  | .str _ => .string
  | .integer _ => .integer
  | .number _ => .number
  | .boolean _ => .boolean
  | .user _ => .user
  | .channel _ => .channel
  | .role _ => .role
  | .mentionable _ => .mentionable
  | .subCommand _ => .subCommand
  | .subCommandGroup _ => .subCommandGroup
  | .focused _ k => k

/-- Parse errors.  Modelled from the spec: the `ParseError` enum itself lives in
a file not present under `src/` (`zephyrus/src/parse.rs`); the spec names the
kinds `TypeMismatch` (built from a message string via `.into()`), `RangeError`
and `StructureMismatch`.  Range errors in `parse_impl.rs` are built from
message strings exactly like type mismatches, so both map to `parsing`. -/
inductive ParseError where
  | parsing (msg : String)
  | structureMismatch (msg : String)
  deriving DecidableEq, Repr

/-- `impl Parse for String` (src/parse_impl.rs lines 4-22). -/
def parseString : Option CommandOptionValue → Except ParseError String
  | some (.str s) => .ok s
  | _ => .error (.parsing "String expected")

/-- `impl Parse for i64` (src/parse_impl.rs lines 24-42). -/
def parseI64 : Option CommandOptionValue → Except ParseError Int
  | some (.integer i) => .ok i
  | _ => .error (.parsing "Integer expected")

/-- Two's-complement reinterpretation of an i64 payload as u64 (`*i as u64`). -/
def asU64OfI64 (i : Int) : Nat :=
  (i.emod (2 ^ 64)).toNat

/-- `impl Parse for u64` (src/parse_impl.rs lines 44-62): accepts an Integer
payload and reinterprets it (`Ok(*i as u64)`). -/
def parseU64 : Option CommandOptionValue → Except ParseError Nat
  | some (.integer i) => .ok (asU64OfI64 i)
  | _ => .error (.parsing "Integer expected")

/-- `impl Parse for bool` (src/parse_impl.rs lines 84-102). -/
def parseBool : Option CommandOptionValue → Except ParseError Bool
  | some (.boolean b) => .ok b
  | _ => .error (.parsing "Boolean expected")

/-- Truncating Rust cast `x as i64`: wrap into [-2^63, 2^63). -/
def asI64 (x : Int) : Int :=
  (x + 2 ^ 63) % 2 ^ 64 - 2 ^ 63

/-- Truncating Rust cast `x as u64` from an unsigned source: wrap modulo 2^64. -/
def asU64 (x : Nat) : Nat :=
  x % 2 ^ 64

/-- The error message produced by `impl_derived_parse!` when the payload is
above the target type's casted maximum. -/
def aboveMaxMsg (name : String) : ParseError :=
  .parsing ("Failed to parse to " ++ name ++ ": the value is greater than "
    ++ name ++ "'s range of values")

/-- The error message produced by `impl_derived_parse!` when the payload is
below the target type's casted minimum. -/
def belowMinMsg (name : String) : ParseError :=
  .parsing ("Failed to parse to " ++ name ++ ": the value is less than "
    ++ name ++ "'s range of values")

/-- The body of `impl_derived_parse!` (src/parse_impl.rs lines 236-287) for a
signed target type with true bounds `dMIN`/`dMAX`: parse as i64, then compare
against `MAX as i64` / `MIN as i64` (the casts truncate, exactly as in the
source).  The final `Ok(p as $derived)` is value-preserving in every reachable
case (for in-range narrow targets the cast is the identity, and the casts to
i128/isize are lossless), hence `.ok p`. -/
def parseDerivedSigned (dMIN dMAX : Int) (name : String)
    (v : Option CommandOptionValue) : Except ParseError Int :=
  match parseI64 v with
  | .error e => .error e
  | .ok p =>
    if p > asI64 dMAX then .error (aboveMaxMsg name)
    else if p < asI64 dMIN then .error (belowMinMsg name)
    else .ok p

/-- The body of `impl_derived_parse!` for an unsigned target type with maximum
`dMAX`: parse as u64 (which reinterprets the i64 payload), then compare against
`MAX as u64` / `MIN as u64` (`MIN as u64 = 0` for every unsigned type). -/
def parseDerivedUnsigned (dMAX : Nat) (name : String)
    (v : Option CommandOptionValue) : Except ParseError Nat :=
  match parseU64 v with
  | .error e => .error e
  | .ok p =>
    if p > asU64 dMAX then .error (aboveMaxMsg name)
    else if p < asU64 0 then .error (belowMinMsg name)
    else .ok p

/-- `impl Parse for i8`. -/
def parseI8 : Option CommandOptionValue → Except ParseError Int :=
  parseDerivedSigned (-(2 ^ 7)) (2 ^ 7 - 1) "i8"

/-- `impl Parse for i16`. -/
def parseI16 : Option CommandOptionValue → Except ParseError Int :=
  parseDerivedSigned (-(2 ^ 15)) (2 ^ 15 - 1) "i16"

/-- `impl Parse for i32`. -/
def parseI32 : Option CommandOptionValue → Except ParseError Int :=
  parseDerivedSigned (-(2 ^ 31)) (2 ^ 31 - 1) "i32"

/-- `impl Parse for i128`.  Note `i128::MAX as i64` truncates. -/
def parseI128 : Option CommandOptionValue → Except ParseError Int :=
  parseDerivedSigned (-(2 ^ 127)) (2 ^ 127 - 1) "i128"

/-- `impl Parse for isize` (64-bit target). -/
def parseIsize : Option CommandOptionValue → Except ParseError Int :=
  parseDerivedSigned (-(2 ^ 63)) (2 ^ 63 - 1) "isize"

/-- `impl Parse for u8`. -/
def parseU8 : Option CommandOptionValue → Except ParseError Nat :=
  parseDerivedUnsigned (2 ^ 8 - 1) "u8"

/-- `impl Parse for u16`. -/
def parseU16 : Option CommandOptionValue → Except ParseError Nat :=
  parseDerivedUnsigned (2 ^ 16 - 1) "u16"

/-- `impl Parse for u32`. -/
def parseU32 : Option CommandOptionValue → Except ParseError Nat :=
  parseDerivedUnsigned (2 ^ 32 - 1) "u32"

/-- `impl Parse for u128`.  Note `u128::MAX as u64` truncates to `u64::MAX`. -/
def parseU128 : Option CommandOptionValue → Except ParseError Nat :=
  parseDerivedUnsigned (2 ^ 128 - 1) "u128"

/-- `impl Parse for usize` (64-bit target). -/
def parseUsize : Option CommandOptionValue → Except ParseError Nat :=
  parseDerivedUnsigned (2 ^ 64 - 1) "usize"

/-- A `Parse` trait instance, bundled as data: the parse function, the
`is_required` flag and the wire option type.  The default of `is_required` is
modelled from the spec: an argument is "required unless the declared type is an
optional wrapper" (the trait's default method lives in a file not under
`src/`). -/
structure ParseSpec (α : Type) where
  parse : Option CommandOptionValue → Except ParseError α
  is_required : Bool := true
  option_type : CommandOptionType

/-- `impl Parse for Option<T>` (src/parse_impl.rs lines 188-209): delegate to
the inner parser, converting failure into `None`; never required; the wire type
is the inner type's. -/
def optionParse {α : Type} (inner : ParseSpec α) : ParseSpec (Option α) where
  parse v :=
    match inner.parse v with
    | .ok parsed => .ok (some parsed)
    | .error _ => .ok none
  is_required := false
  option_type := inner.option_type

/-- `impl Parse for Result<T, E>` (src/parse_impl.rs lines 211-234): always
succeed as an envelope, mapping the inner error.  The caller-supplied error
conversion is a function `conv`. -/
def resultParse {α ε : Type} (inner : ParseSpec α) (conv : ParseError → ε) :
    ParseSpec (Except ε α) where
  parse v := .ok ((inner.parse v).mapError conv)
  is_required := inner.is_required
  option_type := inner.option_type

/-! ## Interaction and framework model (zephyrus/src/framework.rs, command.rs) -/

/-- The interaction kinds of twilight's `InteractionType`. -/
inductive InteractionType where
  | ping
  | applicationCommand
  | messageComponent
  | applicationCommandAutocomplete
  | modalSubmit
  deriving DecidableEq, Repr

/-- The application-command payload (`CommandData`): the invoked name and the
top-level option list. -/
structure CommandData where
  name : String
  options : List CommandDataOption

/-- Twilight's `InteractionData`: the `extract!` macro only distinguishes the
`ApplicationCommand` variant from the rest; `messageComponent` carries its
custom id. -/
inductive InteractionData where
  | applicationCommand (data : CommandData)
  | messageComponent (customId : String)
  | otherData

/-- Whether an `InteractionData` is the `ApplicationCommand` variant. -/
def InteractionData.isAppCommand : InteractionData → Bool
  | .applicationCommand _ => true
  | _ => false

/-- An inbound interaction: its kind and (optional) data payload. -/
structure Interaction where
  kind : InteractionType
  data : Option InteractionData

/-- The outcome of a command handler (`CommandResult`): an opaque success
payload or an error, abstracted to a `Nat` payload on each side. -/
inductive CommandOutcome where
  | success (v : Nat)
  | failure (v : Nat)
  deriving DecidableEq, Repr

/-- An argument declaration (`CommandArgument`): name and optional autocomplete
capability.  The autocomplete hook maps the raw focused text to suggestion
data; its internals are irrelevant to the claims. -/
structure CommandArgument where
  name : String
  autocomplete : Option (String → Option String) := none

/-- A registered command (`zephyrus/src/command.rs` lines 16-28).  The handler
field is called `fun` in the source (a Lean keyword, hence `func`); hooks and
handlers receive the interaction in place of the full `SlashContext`. -/
structure Command where
  name : String
  description : String := ""
  arguments : List CommandArgument := []
  func : Interaction → CommandOutcome
  required_permissions : Option Nat := none
  checks : List (Interaction → String → Bool) := []

/-- Exact-name association-list lookup, standing in for `HashMap::get`. -/
def lookupName {β : Type} (m : List (String × β)) (k : String) : Option β :=
  (m.find? (fun e => e.1 == k)).map (fun e => e.2)

/-- Modelled from the spec: `group.rs` is not under `src/`.  A subgroup holds a
flat map of subcommands ("each subgroup holding a flat map of name→Command"). -/
structure CommandGroup where
  name : String
  description : String := ""
  subcommands : List (String × Command)

/-- Modelled from the spec: the closed two-case variant of a top-level group —
"either a flat map name→Command (simple group) or a map name→Subgroup". -/
inductive ParentType where
  | simple (map : List (String × Command))
  | group (map : List (String × CommandGroup))

/-- `ParentType::as_simple`. -/
def ParentType.as_simple : ParentType → Option (List (String × Command))
  | .simple m => some m
  | _ => none

/-- `ParentType::as_group`. -/
def ParentType.as_group : ParentType → Option (List (String × CommandGroup))
  | .group m => some m
  | _ => none

/-- Modelled from the spec and the uses in `framework.rs`: a top-level group
(`GroupParent`). -/
structure GroupParent where
  name : String
  description : String := ""
  kind : ParentType
  required_permissions : Option Nat := none

/-- A waiter (`WaiterWaker`): a matching predicate and a one-shot delivery
slot.  Modelled from the spec ("a matching predicate over (dispatcher-state,
incoming interaction) → boolean, and a one-shot delivery slot"); `waiter.rs` is
not under `src/`.  The dispatcher-state argument of `check` is elided: it is
constant during a scan.  Fulfilment of the slot is modelled by returning the
woken waiter together with the delivered interaction. -/
structure WaiterWaker where
  check : Interaction → Bool

/-- The framework state relevant to dispatch (`Framework` fields minus the
http client and application id, which only matter to the out-of-scope
transport). -/
structure Framework where
  commands : List (String × Command) := []
  groups : List (String × GroupParent) := []
  before : Option (Interaction → String → Bool) := none
  after : Option Unit := none
  waiters : List WaiterWaker := []

/-- Where a Rust panic can fire inside dispatch. -/
inductive PanicSite where
  | unwrapNone
  | extractMismatch
  | getCommandNested
  deriving DecidableEq, Repr

/-- A value or a panic at a known site. -/
inductive PanicOr (α : Type) where
  | panicked (site : PanicSite)
  | ok (val : α)

/-- Replace the option list inside a command interaction's data
(the in-place mutation `interaction_data.options = options`). -/
def Interaction.withOptions (i : Interaction) (opts : List CommandDataOption) :
    Interaction :=
  match i.data with
  | some (.applicationCommand d) =>
    { i with data := some (.applicationCommand { d with options := opts }) }
  | _ => i

/-- `Framework::get_next` (framework.rs lines 250-261): pop the first option if
it is a subcommand or subcommand group, returning it and the remaining list. -/
def getNext (opts : List CommandDataOption) :
    Option CommandDataOption × List CommandDataOption :=
  match opts with
  | [] => (none, [])
  | o :: rest =>
    if o.value.kind = .subCommand ∨ o.value.kind = .subCommandGroup then
      (some o, rest)
    else
      (none, o :: rest)

/-- `Framework::get_command` (framework.rs lines 213-248), with the in-place
mutations of the interaction made explicit by returning the updated
interaction.  Panics are explicit: the `extract!` macro's `unreachable!()`
fires when the data is a non-`ApplicationCommand` variant, and the
`match ... value { SubCommand(s) => s, _ => unreachable!() }` arms map to
`.panicked .getCommandNested`. -/
def getCommand (fw : Framework) (i : Interaction) :
    PanicOr (Option Command × Interaction) :=
  match i.data with
  | none => .ok (none, i)
  | some (.applicationCommand d) =>
    match getNext d.options with
    | (some next, rest) =>
      match lookupName fw.groups d.name with
      | none => .ok (none, i.withOptions rest)
      | some group =>
        match next.value.kind with
        | .subCommand =>
          match group.kind.as_simple with
          | none => .ok (none, i.withOptions rest)
          | some subcommands =>
            match next.value with
            | .subCommand s =>
              .ok (lookupName subcommands next.name, i.withOptions s)
            | _ => .panicked .getCommandNested
        | .subCommandGroup =>
          match next.value with
          | .subCommandGroup s =>
            match getNext s with
            | (none, _) => .ok (none, i.withOptions rest)
            | (some subcommand, _) =>
              match group.kind.as_group with
              | none => .ok (none, i.withOptions rest)
              | some subgroups =>
                match lookupName subgroups next.name with
                | none => .ok (none, i.withOptions rest)
                | some sub_group =>
                  match subcommand.value with
                  | .subCommand sopts =>
                    .ok (lookupName sub_group.subcommands subcommand.name,
                      i.withOptions sopts)
                  | _ => .panicked .getCommandNested
          | _ => .panicked .getCommandNested
        | _ => .ok (none, i.withOptions rest)
    | (none, _) => .ok (lookupName fw.commands d.name, i)
  | some _ => .panicked .extractMismatch

/-- Observable events of the execution pipeline. -/
inductive ExecEvent where
  | beforeHook (name : String) (proceed : Bool)
  | handlerRun (name : String) (result : CommandOutcome)
  | afterHook (name : String) (result : CommandOutcome)
  deriving DecidableEq, Repr

/-- `Framework::execute` (framework.rs lines 263-285) as an event trace: run
the optional before hook; if it permits, run the handler and then the optional
after hook with the handler's result. -/
def execute (fw : Framework) (cmd : Command) (i : Interaction) :
    List ExecEvent :=
  let proceed :=
    match fw.before with
    | some b => b i cmd.name
    | none => true
  let pre :=
    match fw.before with
    | some b => [ExecEvent.beforeHook cmd.name (b i cmd.name)]
    | none => []
  if proceed then
    let result := cmd.func i
    pre ++ [ExecEvent.handlerRun cmd.name result] ++
      (match fw.after with
       | some _ => [ExecEvent.afterHook cmd.name result]
       | none => [])
  else
    pre

/-- `Framework::try_execute` (framework.rs lines 112-116): resolve the command;
if none matches, do nothing. -/
def tryExecute (fw : Framework) (i : Interaction) :
    PanicOr (Option (List ExecEvent)) :=
  match getCommand fw i with
  | .panicked s => .panicked s
  | .ok (none, _) => .ok none
  | .ok (some cmd, i') => .ok (some (execute fw cmd i'))

/-- The focused-option view built by the `focused!` macro (framework.rs lines
28-38): the raw input and the declared type tag. -/
structure Focused where
  input : String
  kind : CommandOptionType
  deriving DecidableEq, Repr

/-- `Framework::get_focus` (framework.rs lines 201-208): the first option whose
value is `Focused`. -/
def getFocus (data : List CommandDataOption) : Option CommandDataOption :=
  data.find? (fun item =>
    match item.value with
    | .focused _ _ => true
    | _ => false)

/-- `Framework::get_autocomplete_argument` (framework.rs lines 145-199),
written in explicit state-passing style: every branch returns the (possibly
updated) `CommandData` alongside the result.  The source takes the data by
shared reference and performs no mutation, so each branch passes `data`
through unchanged. -/
def getAutocompleteArgument (fw : Framework) (data : CommandData) :
    Option (CommandArgument × Focused) × CommandData :=
  match data.options with
  | [] => (none, data)
  | outer :: _ =>
    match outer.value with
    | .subCommandGroup sc_group =>
      if sc_group.isEmpty then (none, data)
      else
        let res : Option (CommandArgument × Focused) := do
          let parent ← lookupName fw.groups data.name
          let map ← parent.kind.as_group
          let group ← lookupName map outer.name
          let next ← sc_group.head?
          match next.value with
          | .subCommand options => do
            let focusedOpt ← getFocus options
            let command ← lookupName group.subcommands next.name
            let position ← command.arguments.findIdx?
              (fun arg => arg.name == focusedOpt.name)
            let argument ← command.arguments.get? position
            match focusedOpt.value with
            | .focused input kind => some (argument, ⟨input, kind⟩)
            | _ => none
          | _ => none
        (res, data)
    | .subCommand sc =>
      if sc.isEmpty then (none, data)
      else
        let res : Option (CommandArgument × Focused) := do
          let parent ← lookupName fw.groups data.name
          let group ← parent.kind.as_simple
          let focusedOpt ← getFocus sc
          let command ← lookupName group outer.name
          let position ← command.arguments.findIdx?
            (fun arg => arg.name == focusedOpt.name)
          let argument ← command.arguments.get? position
          match focusedOpt.value with
          | .focused input kind => some (argument, ⟨input, kind⟩)
          | _ => none
        (res, data)
    | _ =>
      let res : Option (CommandArgument × Focused) := do
        let focusedOpt ← getFocus data.options
        let command ← lookupName fw.commands data.name
        let position ← command.arguments.findIdx?
          (fun arg => arg.name == focusedOpt.name)
        let argument ← command.arguments.get? position
        match focusedOpt.value with
        | .focused input kind => some (argument, ⟨input, kind⟩)
        | _ => none
      (res, data)

/-- The waiter-registry scan inside `Framework::process` (framework.rs lines
100-105): find the position of the first waker whose predicate accepts the
interaction, remove it, and wake it with the interaction.  The returned pair is
(registry afterwards, woken waker with its delivered interaction, if any). -/
def wakeScan (ws : List WaiterWaker) (i : Interaction) :
    List WaiterWaker × Option (WaiterWaker × Interaction) :=
  match ws.findIdx? (fun waker => waker.check i) with
  | some position =>
    (ws.eraseIdx position,
      match ws.get? position with
      | some waker => some (waker, i)
      | none => none)
  | none => (ws, none)

/-- The observable effect of processing one interaction. -/
inductive ProcessEffect where
  | executed (trace : List ExecEvent)
  | noCommand
  | autocompleted (res : Option (CommandArgument × Focused))
  | componentScan (remaining : List WaiterWaker)
      (woken : Option (WaiterWaker × Interaction))
  | ignored

/-- `Framework::try_autocomplete` (framework.rs lines 118-143):
`interaction.data.as_ref().unwrap()` panics when the data is absent, and
`extract!` panics on a non-`ApplicationCommand` variant; otherwise the focused
argument is resolved (invoking its autocomplete hook and responding is the
out-of-scope transport step). -/
def tryAutocomplete (fw : Framework) (i : Interaction) :
    PanicOr ProcessEffect :=
  match i.data with
  | none => .panicked .unwrapNone
  | some (.applicationCommand d) =>
    .ok (.autocompleted (getAutocompleteArgument fw d).1)
  | some _ => .panicked .extractMismatch

/-- `Framework::process` (framework.rs lines 96-108): classify the interaction
by kind and dispatch to the router, the autocomplete resolver, or the waiter
scan; all other kinds fall into the `_ => ()` arm. -/
def process (fw : Framework) (i : Interaction) : PanicOr ProcessEffect :=
  match i.kind with
  | .applicationCommand =>
    match tryExecute fw i with
    | .panicked s => .panicked s
    | .ok none => .ok .noCommand
    | .ok (some trace) => .ok (.executed trace)
  | .applicationCommandAutocomplete => tryAutocomplete fw i
  | .messageComponent =>
    match wakeScan fw.waiters i with
    | (remaining, woken) => .ok (.componentScan remaining woken)
  | _ => .ok .ignored

/-! ## Positional-by-name argument parsing (zephyrus-macros/src/button.rs) -/

/-- A declared argument paired with its parser, as consumed by the generated
parsing prologue. -/
structure ArgDecl (α : Type) where
  name : String
  parse : Option CommandOptionValue → Except ParseError α

/-- Modelled from the spec: the `DataIterator` consumption step of
`named_parse` (`zephyrus/src/iter.rs` and `parse.rs` are not under `src/`).
Arguments are "parsed positionally-by-name": the entry matching the declared
name is removed from the iterator; an absent name consumes nothing and the
parser receives no value. -/
def removeNamed (name : String) :
    List CommandDataOption → Option CommandOptionValue × List CommandDataOption
  | [] => (none, [])
  | o :: rest =>
    if o.name == name then (some o.value, rest)
    else
      match removeNamed name rest with
      | (v, rest') => (v, o :: rest')

/-- Modelled from the spec: `named_parse` — consume the named entry (if
present) and run the declared parser on it. -/
def namedParse {α : Type} (d : ArgDecl α) (opts : List CommandDataOption) :
    Except ParseError α × List CommandDataOption :=
  match removeNamed d.name opts with
  | (v, rest) => (d.parse v, rest)

/-- The sequential parsing phase of the generated prologue
(zephyrus-macros/src/button.rs lines 105-126): parse each declared argument in
declaration order, threading the remaining option entries; stop at the first
failure. -/
def parseSeq {α : Type} :
    List (ArgDecl α) → List CommandDataOption →
      Except ParseError (List α × List CommandDataOption)
  | [], opts => .ok ([], opts)
  | d :: ds, opts =>
    match namedParse d opts with
    | (.error e, _) => .error e
    | (.ok x, rest) =>
      match parseSeq ds rest with
      | .error e => .error e
      | .ok (xs, leftover) => .ok (x :: xs, leftover)

/-- The full generated parsing prologue: after the sequential phase, if the
iterator still holds entries (`__options.len() > 0`), fail with
`StructureMismatch("Too many arguments received")`. -/
def parseArguments {α : Type} (ds : List (ArgDecl α))
    (opts : List CommandDataOption) : Except ParseError (List α) :=
  match parseSeq ds opts with
  | .error e => .error e
  | .ok (xs, leftover) =>
    if leftover.length > 0 then
      .error (.structureMismatch "Too many arguments received")
    else
      .ok xs

/-- The generated function body: run the parsing prologue, then the original
handler block on the parsed values; a parse failure returns early and the body
never runs. -/
def runWithArgs {α β : Type} (ds : List (ArgDecl α))
    (opts : List CommandDataOption) (body : List α → β) :
    Except ParseError β :=
  match parseArguments ds opts with
  | .error e => .error e
  | .ok xs => .ok (body xs)

/-! ## Concrete fixtures used by witnesses and counterexamples -/

/-- A trivial handler. -/
def nestedHandler : Interaction → CommandOutcome := fun _ => .success 0

/-- A leaf command registered under a subgroup. -/
def cmdLeaf : Command := { name := "c", func := nestedHandler }

/-- A framework whose registry has the grouped top-level group `g` with
subgroup `x` holding subcommand `c`. -/
def fwNested : Framework :=
  { groups := [("g",
      { name := "g",
        kind := .group [("x", { name := "x", subcommands := [("c", cmdLeaf)] })] })] }

/-- A command interaction naming `g` whose nested first element is itself a
`SubCommandGroup` (wrong-shape nesting at the second level). -/
def nestedInteraction : Interaction :=
  ⟨.applicationCommand,
    some (.applicationCommand
      ⟨"g", [.mk "x" (.subCommandGroup [.mk "y" (.subCommandGroup [])])]⟩)⟩

/-- A framework with nothing registered. -/
def emptyFramework : Framework := {}

/-- A command interaction with an absent data payload. -/
def dataAbsentCommand : Interaction := ⟨.applicationCommand, none⟩

/-- W1: a waiter whose predicate is always false. -/
def w1False : WaiterWaker := ⟨fun _ => false⟩

/-- W2: a waiter matching component interactions named "confirm". -/
def w2Confirm : WaiterWaker :=
  ⟨fun i =>
    match i.data with
    | some (.messageComponent n) => n == "confirm"
    | _ => false⟩

/-- A component interaction named "confirm". -/
def confirmInteraction : Interaction :=
  ⟨.messageComponent, some (.messageComponent "confirm")⟩

/-- A framework with W1 registered before W2. -/
def fwTwoWaiters : Framework := { waiters := [w1False, w2Confirm] }

/-- A waiter whose predicate accepts every interaction. -/
def wAlways : WaiterWaker := ⟨fun _ => true⟩

/-- A framework with a single always-matching waiter registered. -/
def fwWaiting : Framework := { waiters := [wAlways] }

/-- A ping interaction (neither command, autocomplete, nor component). -/
def pingInteraction : Interaction := ⟨.ping, none⟩

/-- A framework whose before hook always denies. -/
def denyBefore : Framework := { before := some (fun _ _ => false) }

/-- A framework with no before hook and an after hook set. -/
def allowFramework : Framework := { before := none, after := some () }

/-- A command with a fixed handler result. -/
def simpleCmd : Command := { name := "cmd", func := fun _ => .success 1 }

/-- Declared argument `a` of text type. -/
def declA : ArgDecl String := ⟨"a", parseString⟩

/-- Declared argument `b` of text type. -/
def declB : ArgDecl String := ⟨"b", parseString⟩

/-- An option list carrying three entries for the two declared arguments. -/
def threeOptions : List CommandDataOption :=
  [.mk "a" (.str "1"), .mk "b" (.str "2"), .mk "c" (.str "3")]

/-! ## Helper lemmas -/

/-- `findIdx?` returns exactly the first index whose element satisfies the
predicate. -/
theorem findIdx?_eq_some_of_first {α : Type} (pred : α → Bool) :
    ∀ (ws : List α) (p : Nat) (hp : p < ws.length),
      pred (ws.get ⟨p, hp⟩) = true →
      (∀ j (hj : j < p), pred (ws.get ⟨j, Nat.lt_trans hj hp⟩) = false) →
      ws.findIdx? pred = some p
  | [], p, hp, _, _ => absurd hp (Nat.not_lt_zero p)
  | w :: ws, 0, _, hmatch, _ => by
      simp only [List.findIdx?_cons, List.get] at hmatch ⊢
      simp [hmatch]
  | w :: ws, p + 1, hp, hmatch, hfirst => by
      have h0 : pred w = false := hfirst 0 (Nat.succ_pos p)
      have ih := findIdx?_eq_some_of_first pred ws p (Nat.lt_of_succ_lt_succ hp)
        hmatch (fun j hj => hfirst (j + 1) (Nat.succ_lt_succ hj))
      simp only [List.findIdx?_cons, h0, if_neg]
      simp [List.findIdx?_succ, ih]

/-- On a command interaction whose data is the `ApplicationCommand` variant,
`getCommand` either panics at the nested-subcommand `unreachable!()` or returns
normally: the `extract!`/`unwrap` sites cannot fire. -/
theorem getCommand_sites (fw : Framework) (i : Interaction) (d : CommandData)
    (h : i.data = some (.applicationCommand d)) :
    getCommand fw i = .panicked .getCommandNested ∨
      ∃ r, getCommand fw i = .ok r := by
  unfold getCommand
  rw [h]
  repeat' split
  all_goals first
    | exact Or.inl rfl
    | exact Or.inr ⟨_, rfl⟩
    | (rename_i hall heq; exact absurd heq.symm (hall _))
    | (rename_i hall heq; injection heq with heq2; exact absurd heq2.symm (hall _))

/-! ## Claim theorems -/

set_option maxRecDepth 4000

/-- C1: for the 8-bit signed target the derived parser behaves as the claim
says (127 parses to 127, 128 fails above-max, -129 fails below-min), but the
claim's general statement fails for the 128-bit signed target: the source
compares against `i128::MAX as i64`, which truncates to -1 (and `i128::MIN as
i64` to 0), so every integer payload is rejected — payload 0 with the
above-max range error — although every i64 value lies inside i128's range. -/
theorem parse_narrowing_i8_ok_i128_always_fails :
    parseI8 (some (.integer 127)) = .ok 127 ∧
    parseI8 (some (.integer 128)) = .error (aboveMaxMsg "i8") ∧
    parseI8 (some (.integer (-129))) = .error (belowMinMsg "i8") ∧
    asI64 (2 ^ 127 - 1) = -1 ∧
    parseI128 (some (.integer 0)) = .error (aboveMaxMsg "i128") ∧
    parseI128 (some (.integer (-1))) = .error (belowMinMsg "i128") :=
  ⟨rfl, rfl, rfl, rfl, rfl, rfl⟩

/-- C2: the routing state machine does not always surface wrong-shape nesting
as "no match": with the grouped group `g` registered, a command interaction
whose nested first element is itself a `SubCommandGroup` reaches the
`unreachable!()` arm of `get_command` and panics instead of resolving to no
command. -/
theorem getCommand_nested_subcommandgroup_panics :
    getCommand fwNested nestedInteraction = .panicked .getCommandNested ∧
    process fwNested nestedInteraction = .panicked .getCommandNested :=
  ⟨rfl, rfl⟩

/-- C3: parsing `Option<T>` never fails — the result is the inner parser's
success value when it succeeds and `none` when it fails, no error is ever
propagated, the argument is not required, and the wire type is the inner
type's. -/
theorem optionParse_never_fails (α : Type) (inst : ParseSpec α)
    (v : Option CommandOptionValue) :
    (optionParse inst).parse v = .ok (inst.parse v).toOption ∧
    (∀ e, (optionParse inst).parse v ≠ .error e) ∧
    (optionParse inst).is_required = false ∧
    (optionParse inst).option_type = inst.option_type := by
  refine ⟨?_, ?_, rfl, rfl⟩ <;>
    cases h : inst.parse v <;> simp [optionParse, Except.toOption, h]

/-- C3 witness: an optional 64-bit integer argument given a string payload
parses to "absent" rather than an error. -/
theorem optionParse_never_fails_witness :
    (optionParse ⟨parseI64, true, .integer⟩).parse (some (.str "x")) =
      .ok none :=
  (optionParse_never_fails Int ⟨parseI64, true, .integer⟩ (some (.str "x"))).1

/-- C4: delivering a component interaction to the waiter registry wakes
exactly the first waiter whose predicate accepts it: that waiter is removed
and handed the interaction, every other waiter (earlier non-matching ones
included) remains registered in order, and the registry shrinks by exactly
one. -/
theorem wakeScan_wakes_exactly_first_match (ws : List WaiterWaker)
    (i : Interaction) (p : Nat) (hp : p < ws.length)
    (hmatch : (ws.get ⟨p, hp⟩).check i = true)
    (hfirst : ∀ j (hj : j < p), (ws.get ⟨j, Nat.lt_trans hj hp⟩).check i = false) :
    wakeScan ws i = (ws.eraseIdx p, some (ws.get ⟨p, hp⟩, i)) ∧
    ws.eraseIdx p = ws.take p ++ ws.drop (p + 1) ∧
    (ws.eraseIdx p).length + 1 = ws.length := by
  have hidx : ws.findIdx? (fun waker => waker.check i) = some p :=
    findIdx?_eq_some_of_first _ ws p hp hmatch hfirst
  refine ⟨?_, List.eraseIdx_eq_take_drop_succ ws p, ?_⟩
  · unfold wakeScan
    simp only [hidx, List.get?_eq_get hp]
  · rw [List.length_eraseIdx_of_lt hp]
    exact Nat.succ_pred_eq_of_pos (Nat.lt_of_le_of_lt (Nat.zero_le p) hp)

/-- C4 witness: with W1 (always false) registered before W2 (matches
"confirm"), delivering a component interaction named "confirm" wakes exactly
W2 and leaves W1 registered. -/
theorem wakeScan_confirm_witness :
    wakeScan [w1False, w2Confirm] confirmInteraction =
      ([w1False], some (w2Confirm, confirmInteraction)) :=
  (wakeScan_wakes_exactly_first_match [w1False, w2Confirm] confirmInteraction 1
    (by decide) rfl
    (fun j hj => by
      have hj0 : j = 0 := Nat.lt_one_iff.mp hj
      subst hj0
      rfl)).1

/-- C5: a before hook returning false stops execution with no handler and no
after hook; if the before hook is absent or returns true, the handler runs and
the after hook (when set) then receives the command name and the handler's
result, whatever it is. -/
theorem execute_hook_gating (fw : Framework) (cmd : Command) (i : Interaction) :
    (∀ b, fw.before = some b → b i cmd.name = false →
      execute fw cmd i = [.beforeHook cmd.name false] ∧
      (∀ n r, ExecEvent.handlerRun n r ∉ execute fw cmd i) ∧
      (∀ n r, ExecEvent.afterHook n r ∉ execute fw cmd i)) ∧
    (∀ b, fw.before = some b → b i cmd.name = true →
      execute fw cmd i =
        ExecEvent.beforeHook cmd.name true ::
          ExecEvent.handlerRun cmd.name (cmd.func i) ::
          (match fw.after with
           | some _ => [ExecEvent.afterHook cmd.name (cmd.func i)]
           | none => [])) ∧
    (fw.before = none →
      execute fw cmd i =
        ExecEvent.handlerRun cmd.name (cmd.func i) ::
          (match fw.after with
           | some _ => [ExecEvent.afterHook cmd.name (cmd.func i)]
           | none => [])) := by
  refine ⟨?_, ?_, ?_⟩
  · intro b hb hfalse
    refine ⟨?_, ?_, ?_⟩ <;> simp [execute, hb, hfalse]
  · intro b hb htrue
    cases hafter : fw.after <;> simp [execute, hb, htrue, hafter]
  · intro hb
    cases hafter : fw.after <;> simp [execute, hb, hafter]

/-- C5 witness: a denying before hook yields only the before event; with no
before hook and an after hook set, the handler runs and the after hook sees
its result. -/
theorem execute_hook_gating_witness :
    execute denyBefore simpleCmd pingInteraction = [.beforeHook "cmd" false] ∧
    execute allowFramework simpleCmd pingInteraction =
      [.handlerRun "cmd" (.success 1), .afterHook "cmd" (.success 1)] :=
  ⟨((execute_hook_gating denyBefore simpleCmd pingInteraction).1 _ rfl rfl).1,
    (execute_hook_gating allowFramework simpleCmd pingInteraction).2.2 rfl⟩

/-- C6 counterexample: a ping interaction is neither a command invocation nor
an autocomplete request, yet it is dropped by the `_ => ()` arm without the
waiter registry ever being scanned — the registered always-matching waiter is
not woken, although a scan would have woken it. -/
theorem process_ping_not_scanned :
    process fwWaiting pingInteraction = .ok .ignored ∧
    wakeScan fwWaiting.waiters pingInteraction =
      ([], some (wAlways, pingInteraction)) :=
  ⟨rfl, rfl⟩

/-- C6 (amended): dispatch classifies by kind — command invocations go to the
router, autocomplete requests to the resolver, message-component interactions
to the waiter scan (and when no waiter predicate matches, the registry is left
unchanged and nothing is woken); interactions of any other kind are dropped
without consulting the registry. -/
theorem process_classification (fw : Framework) (i : Interaction) :
    (i.kind = .messageComponent →
      process fw i =
        .ok (.componentScan (wakeScan fw.waiters i).1 (wakeScan fw.waiters i).2)) ∧
    (i.kind = .messageComponent → (∀ w ∈ fw.waiters, w.check i = false) →
      process fw i = .ok (.componentScan fw.waiters none)) ∧
    ((i.kind = .ping ∨ i.kind = .modalSubmit) → process fw i = .ok .ignored) ∧
    (i.kind = .applicationCommand →
      process fw i =
        match tryExecute fw i with
        | .panicked s => .panicked s
        | .ok none => .ok .noCommand
        | .ok (some trace) => .ok (.executed trace)) ∧
    (i.kind = .applicationCommandAutocomplete →
      process fw i = tryAutocomplete fw i) := by
  refine ⟨?_, ?_, ?_, ?_, ?_⟩
  · intro hk
    unfold process
    rw [hk]
  · intro hk hnone
    unfold process
    rw [hk]
    unfold wakeScan
    rw [List.findIdx?_eq_none_iff.mpr hnone]
  · rintro (hk | hk) <;> rw [process, hk]
  · intro hk
    unfold process
    rw [hk]
  · intro hk
    unfold process
    rw [hk]

/-- C6 witness: a component interaction is scanned against the registry: with
W1 and W2 registered, processing the "confirm" component wakes W2 and leaves
W1. -/
theorem process_classification_witness :
    process fwTwoWaiters confirmInteraction =
      .ok (.componentScan [w1False] (some (w2Confirm, confirmInteraction))) :=
  (process_classification fwTwoWaiters confirmInteraction).1 rfl

/-- C7: when the sequential phase consumes all declared arguments and option
entries remain, the generated prologue fails with
`StructureMismatch("Too many arguments received")` and the handler body never
runs. -/
theorem parseArguments_leftover_structure_mismatch (α : Type)
    (ds : List (ArgDecl α)) (opts : List CommandDataOption)
    (xs : List α) (leftover : List CommandDataOption)
    (hseq : parseSeq ds opts = .ok (xs, leftover)) (hne : leftover ≠ []) :
    parseArguments ds opts =
      .error (.structureMismatch "Too many arguments received") ∧
    ∀ (β : Type) (body : List α → β),
      runWithArgs ds opts body =
        .error (.structureMismatch "Too many arguments received") := by
  have hlen : leftover.length > 0 := List.length_pos.mpr hne
  have hargs : parseArguments ds opts =
      .error (.structureMismatch "Too many arguments received") := by
    unfold parseArguments
    rw [hseq]
    simp [hlen]
  exact ⟨hargs, fun β body => by unfold runWithArgs; rw [hargs]⟩

/-- C7 witness: declared arguments [a, b] against three option entries consume
a and b and then fail with the structure mismatch. -/
theorem parseArguments_leftover_witness :
    parseSeq [declA, declB] threeOptions =
      .ok (["1", "2"], [.mk "c" (.str "3")]) ∧
    parseArguments [declA, declB] threeOptions =
      .error (.structureMismatch "Too many arguments received") :=
  ⟨rfl,
    (parseArguments_leftover_structure_mismatch String [declA, declB]
      threeOptions ["1", "2"] [.mk "c" (.str "3")] rfl
      (List.cons_ne_nil _ _)).1⟩

/-- C8: locating the focused option of an autocomplete interaction leaves the
interaction data — its option list and every nested option list — exactly as
it was. -/
theorem getAutocompleteArgument_preserves_data (fw : Framework)
    (data : CommandData) :
    (getAutocompleteArgument fw data).2 = data := by
  cases data with
  | mk dname dopts =>
    cases dopts with
    | nil => rfl
    | cons outer rest =>
      dsimp only [getAutocompleteArgument]
      cases outer.value <;> dsimp only <;> split <;> rfl

/-- C9: execution is independent of a command's registered checks list: two
commands identical except for `checks` produce the same event trace against
the same interaction — the execution pipeline never invokes the checks. -/
theorem execute_ignores_checks (fw : Framework) (i : Interaction)
    (name description : String) (arguments : List CommandArgument)
    (func : Interaction → CommandOutcome) (perms : Option Nat)
    (checks₁ checks₂ : List (Interaction → String → Bool)) :
    execute fw ⟨name, description, arguments, func, perms, checks₁⟩ i =
      execute fw ⟨name, description, arguments, func, perms, checks₂⟩ i := rfl

/-- C10 counterexample: a command invocation whose data is absent does not
panic — `get_command` returns through the `?` on `data.as_mut()` and the
interaction is silently dropped. -/
theorem process_command_missing_data_no_panic :
    process emptyFramework dataAbsentCommand = .ok .noCommand := rfl

/-- C10 (amended): a command invocation with a present non-application-command
payload panics at the `extract!` site, an autocomplete request panics on
absent data (`unwrap`) or a wrong-variant payload (`extract!`), a command
invocation with absent data is silently dropped without panicking, and under
the precondition that the data payload is a present application-command value
these unwrap/extract panic sites are unreachable. -/
theorem process_panic_characterization (fw : Framework) (i : Interaction) :
    (i.kind = .applicationCommand → ∀ d, i.data = some d →
      d.isAppCommand = false → process fw i = .panicked .extractMismatch) ∧
    (i.kind = .applicationCommandAutocomplete → i.data = none →
      process fw i = .panicked .unwrapNone) ∧
    (i.kind = .applicationCommandAutocomplete → ∀ d, i.data = some d →
      d.isAppCommand = false → process fw i = .panicked .extractMismatch) ∧
    (i.kind = .applicationCommand → i.data = none →
      process fw i = .ok .noCommand) ∧
    (∀ d, i.data = some (.applicationCommand d) →
      process fw i ≠ .panicked .unwrapNone ∧
      process fw i ≠ .panicked .extractMismatch) := by
  refine ⟨?_, ?_, ?_, ?_, ?_⟩
  · intro hk d hd hvar
    unfold process tryExecute getCommand
    rw [hk, hd]
    cases d <;> simp_all [InteractionData.isAppCommand]
  · intro hk hd
    unfold process tryAutocomplete
    rw [hk, hd]
  · intro hk d hd hvar
    unfold process tryAutocomplete
    rw [hk, hd]
    cases d <;> simp_all [InteractionData.isAppCommand]
  · intro hk hd
    unfold process tryExecute getCommand
    rw [hk, hd]
  · intro d hd
    cases hk : i.kind
    case ping => unfold process; rw [hk]; exact ⟨by simp, by simp⟩
    case modalSubmit => unfold process; rw [hk]; exact ⟨by simp, by simp⟩
    case messageComponent =>
      unfold process
      rw [hk]
      constructor <;> (cases hw : wakeScan fw.waiters i; simp)
    case applicationCommandAutocomplete =>
      unfold process tryAutocomplete
      rw [hk, hd]
      exact ⟨by simp, by simp⟩
    case applicationCommand =>
      unfold process tryExecute
      rw [hk]
      rcases getCommand_sites fw i d hd with hpan | ⟨r, hok⟩
      · rw [hpan]
        exact ⟨by simp, by simp⟩
      · rw [hok]
        rcases r with ⟨cmd?, i'⟩
        cases cmd? <;> exact ⟨by simp, by simp⟩

/-- C10 witness: an autocomplete request with absent data panics at the
`unwrap`, and a command invocation carrying a component payload panics at the
`extract!`. -/
theorem process_panic_characterization_witness :
    process emptyFramework ⟨.applicationCommandAutocomplete, none⟩ =
      .panicked .unwrapNone ∧
    process emptyFramework
        ⟨.applicationCommand, some (.messageComponent "z")⟩ =
      .panicked .extractMismatch :=
  ⟨(process_panic_characterization emptyFramework
      ⟨.applicationCommandAutocomplete, none⟩).2.1 rfl rfl,
    (process_panic_characterization emptyFramework
      ⟨.applicationCommand, some (.messageComponent "z")⟩).1 rfl _ rfl rfl⟩

end Zephyrus
